import Mathlib

set_option maxRecDepth 40000

/-!
Verification of the crash-reporting pipeline of a Go HTTP backend
(`main.go`): panic-recovery middleware, tenant (board-id) resolution,
stack-trace location, report encoding and dispatch.

Go strings are modelled as `List Char` (one entry per character; Go indexes
bytes, which coincides with characters on the ASCII data these functions
handle). Go's early `return` inside a function body is encoded by testing
the non-emptiness of the value a block would have returned, which is exact
here because every successful source yields a non-empty string.
-/

/-- The characters of a string literal, the `List Char` form used throughout. -/
def gs (s : String) : List Char := s.data

/-- `strings.HasPrefix(s, p)`. -/
def hasPrefixL : List Char → List Char → Bool
  | _, [] => true
  | [], _ :: _ => false
  | c :: cs, p :: ps => c = p && hasPrefixL cs ps

/-- `strings.Contains(s, sub)`. -/
def containsL : List Char → List Char → Bool
  | [], sub => sub.isEmpty
  | c :: cs, sub => hasPrefixL (c :: cs) sub || containsL cs sub

/-- `strings.Index(s, sub)`: position of the first occurrence, `none` for Go's `-1`. -/
def indexOfSub : List Char → List Char → Option Nat
  | [], sub => if sub.isEmpty then some 0 else none
  | c :: t, sub =>
    if hasPrefixL (c :: t) sub then some 0 else (indexOfSub t sub).map (· + 1)

/-- `strings.LastIndex(s, string(c))`, `none` for Go's `-1`. -/
def lastIndexChar (c : Char) : List Char → Option Nat
  | [] => none
  | h :: t =>
    match lastIndexChar c t with
    | some i => some (i + 1)
    | none => if h = c then some 0 else none

/-- `strings.ToLower` restricted to ASCII case mapping (the marker searched
for, "webapi", is ASCII, and `Char.toLower` agrees with Go on ASCII). -/
def goToLower (s : List Char) : List Char := s.map Char.toLower

/-- Go's `unicode.IsSpace` over the characters Go's `strings.TrimSpace` strips. -/
def goIsSpace (c : Char) : Bool :=
  c = ' ' || c = '\t' || c = '\n' || c = '\x0b' || c = '\x0c' || c = '\r' ||
  c = '\u0085' || c = '\u00A0'

/-- `strings.TrimSpace`. -/
def goTrimSpace (l : List Char) : List Char :=
  ((l.dropWhile goIsSpace).reverse.dropWhile goIsSpace).reverse

/-- `strings.Split(s, string(sep))` for a one-character separator. -/
def splitChar (sep : Char) : List Char → List (List Char)
  | [] => [[]]
  | c :: t =>
    if c = sep then [] :: splitChar sep t
    else
      match splitChar sep t with
      | [] => [[c]]
      | h :: r => (c :: h) :: r

/-- `isValidHex` (main.go:132-139). -/
def isValidHex (s : List Char) : Bool :=
  s.all fun c =>
    ('0' ≤ c && c ≤ '9') || ('a' ≤ c && c ≤ 'f') || ('A' ≤ c && c ≤ 'F')

/-- Value of a non-empty all-digit string. -/
def decDigitsVal (l : List Char) : Option Nat :=
  if l = [] then none
  else if l.all (fun c => '0' ≤ c && c ≤ '9') then
    some (l.foldl (fun acc c => acc * 10 + (c.toNat - 48)) 0)
  else none

/-- `strconv.Atoi`: optional sign, decimal digits, error (none) on empty,
stray characters, or a value outside the 64-bit int range. -/
def goAtoi (l : List Char) : Option Int :=
  match l with
  | '+' :: t => (decDigitsVal t).bind fun n =>
      if n ≤ 2 ^ 63 - 1 then some (Int.ofNat n) else none
  | '-' :: t => (decDigitsVal t).bind fun n =>
      if n ≤ 2 ^ 63 then some (-(Int.ofNat n)) else none
  | _ => (decDigitsVal l).bind fun n =>
      if n ≤ 2 ^ 63 - 1 then some (Int.ofNat n) else none

/-- `strings.ReplaceAll(s, string(p), r)` for a one-character pattern:
left-to-right, non-overlapping. -/
def replaceAllChar (p : Char) (r : List Char) : List Char → List Char
  | [] => []
  | c :: t => if c = p then r ++ replaceAllChar p r t else c :: replaceAllChar p r t

/-- Character-wise expansion, the closed form the chained replacements reach. -/
def concatMapChar (f : Char → List Char) : List Char → List Char
  | [] => []
  | c :: t => f c ++ concatMapChar f t

/-- The inbound request data the pipeline reads: `r.URL.Query().Get("boardId")`,
`r.Header.Get("X-Board-Id")`, `r.Host`, `r.URL.Path`, `r.Method`,
`r.UserAgent()`; a Go accessor yields "" (here `[]`) when absent. -/
structure GoRequest where
  queryBoardId : List Char
  headerBoardId : List Char
  host : List Char
  path : List Char
  method : List Char
  userAgent : List Char

/-- The process environment the pipeline reads: `BOARD_ID` and
`RUNTIME_ERROR_ENDPOINT_URL`; unset variables read as "" (here `[]`). -/
structure GoEnv where
  boardIdEnv : List Char
  endpointUrl : List Char

/-- `extractBoardId` (main.go:83-130): query parameter, header, environment
variable, "webapi"+24-hex pattern in the host, then the same pattern in the
configured endpoint URL. `strings.Index` runs on the lowercased string and
the slice is taken from the original, as in the source. -/
def extractBoardId (r : GoRequest) (env : GoEnv) : List Char :=
  if r.queryBoardId ≠ [] then r.queryBoardId
  else if r.headerBoardId ≠ [] then r.headerBoardId
  else if env.boardIdEnv ≠ [] then env.boardIdEnv
  else
    let fromHost :=
      if r.host ≠ [] then
        match indexOfSub (goToLower r.host) (gs "webapi") with
        | some idx =>
          let remaining := r.host.drop (idx + 6)
          if 24 ≤ remaining.length then
            let boardId := remaining.take 24
            if isValidHex boardId then boardId else []
          else []
        | none => []
      else []
    if fromHost ≠ [] then fromHost
    else
      if env.endpointUrl ≠ [] then
        match indexOfSub (goToLower env.endpointUrl) (gs "webapi") with
        | some idx =>
          let remaining := env.endpointUrl.drop (idx + 6)
          if 24 ≤ remaining.length then
            let boardId := remaining.take 24
            if isValidHex boardId then boardId else []
          else []
        | none => []
      else []

/-- The "webapi"+24-hex pattern source as the spec describes it for one
string (host name or endpoint URL); `[]` when the source yields nothing. -/
def extractFromPattern (u : List Char) : List Char :=
  if u ≠ [] then
    match indexOfSub (goToLower u) (gs "webapi") with
    | some idx =>
      let remaining := u.drop (idx + 6)
      if 24 ≤ remaining.length then
        let boardId := remaining.take 24
        if isValidHex boardId then boardId else []
      else []
    | none => []
  else []

/-- The resolver as the spec words it: five sources in strict priority
order, first non-empty wins. -/
def resolverCascade (r : GoRequest) (env : GoEnv) : List Char :=
  if r.queryBoardId ≠ [] then r.queryBoardId
  else if r.headerBoardId ≠ [] then r.headerBoardId
  else if env.boardIdEnv ≠ [] then env.boardIdEnv
  else if extractFromPattern r.host ≠ [] then extractFromPattern r.host
  else extractFromPattern env.endpointUrl

example :
    extractBoardId
      ⟨[], [], gs "webapi0123456789abcdef01234567.up.example.com",
        gs "/", gs "GET", gs "ua"⟩ ⟨[], []⟩ =
    gs "0123456789abcdef01234567" := by decide

example :
    extractBoardId
      ⟨[], [], gs "xwebapi!webapi0123456789abcdef01234567", gs "/", gs "GET", gs "ua"⟩
      ⟨[], []⟩ = [] := by decide

example :
    extractBoardId ⟨gs "q1", gs "h1", [], gs "/", gs "GET", gs "ua"⟩ ⟨[], []⟩ =
    gs "q1" := by decide

/-- The frame-descriptor skip list of `sendErrorToEndpoint` (main.go:176-181):
recovery middleware, dispatcher, stack capture, panic propagation internals,
and the background-spawn marker. -/
def isMachineryLine (s : List Char) : Bool :=
  containsL s (gs "panicRecoveryMiddleware") || containsL s (gs "sendErrorToEndpoint") ||
  containsL s (gs "runtime.Stack") || containsL s (gs "runtime.gopanic") ||
  containsL s (gs "created by") || containsL s (gs "panic(")

/-- The standard-library / runtime / toolchain path skip list (main.go:195-203). -/
def isStdLibPath (p : List Char) : Bool :=
  containsL p (gs "/runtime/") || containsL p (gs "/mise/installs/go/") ||
  containsL p (gs "/src/runtime/") || containsL p (gs "/src/net/") ||
  containsL p (gs "/src/syscall/") || containsL p (gs "/src/internal/") ||
  containsL p (gs "/src/database/") || containsL p (gs "/usr/local/go/") ||
  containsL p (gs "/usr/lib/go/")

/-- The file path a frame line carries: everything before the last ':' of the
trimmed line (main.go:187-191). -/
def filePathOfLine (line : List Char) : List Char :=
  goTrimSpace (List.intercalate [':'] (splitChar ':' (goTrimSpace line)).dropLast)

/-- Go's `lineStr[:spaceIdx]` truncation at the first space when it is not at
position 0 (main.go:210-212). -/
def stripOffset (l : List Char) : List Char :=
  match indexOfSub l (gs " ") with
  | some i => if 0 < i then l.take i else l
  | none => l

/-- `filePath[lastSlash+1:]` when a '/' occurs, else the whole path
(main.go:216-220). -/
def lastSegment (p : List Char) : List Char :=
  match lastIndexChar '/' p with
  | some i => p.drop (i + 1)
  | none => p

/-- The scan of `sendErrorToEndpoint` over the trace lines (main.go:161-226),
carrying the previous line (`lines[i-1]`). A line starting "goroutine" is
skipped; a line containing ".go:" is a candidate frame, rejected when the
previous line names the recovery machinery, when its path is under a
standard-library prefix, or when its trailing text does not parse as an
integer; the first accepted frame ends the scan. `([], 0)` is the loop's
initial `fileName`/`lineNumber`, returned when nothing is accepted. -/
def locateScan : List Char → List (List Char) → List Char × Int
  | _, [] => ([], 0)
  | prev, line :: rest =>
    if hasPrefixL line (gs "goroutine") then locateScan line rest
    else if containsL line (gs ".go:") then
      if isMachineryLine prev then locateScan line rest
      else
        let parts := splitChar ':' (goTrimSpace line)
        if 2 ≤ parts.length then
          let filePath := goTrimSpace (List.intercalate [':'] parts.dropLast)
          if isStdLibPath filePath then locateScan line rest
          else
            match goAtoi (stripOffset (goTrimSpace (parts.getLastD []))) with
            | some n => (lastSegment filePath, n)
            | none => locateScan line rest
        else locateScan line rest
    else locateScan line rest

/-- The Trace Locator of the request path: split the trace on newlines and
scan; the line at index 0 is never a frame (`i > 0` in the source), it only
serves as the first previous line. -/
def sendErrorLocate (stackTrace : List Char) : List Char × Int :=
  match splitChar '\n' stackTrace with
  | [] => ([], 0)
  | first :: rest => locateScan first rest

example :
    sendErrorLocate (gs "goroutine 1 [running]:\nmain.handler(0x0)\n\t/app/app.go:42 +0x1c") =
    (gs "app.go", 42) := by decide

example :
    sendErrorLocate
      (gs "goroutine 1 [running]:\nmain.panicRecoveryMiddleware.func1.1(0x0)\n\t/app/main.go:61 +0x25") =
    ([], 0) := by decide

example :
    sendErrorLocate (gs "goroutine 7 [running]:\nnet/http.conn.serve(0x0)\n\t/usr/local/go/src/net/http/server.go:2009 +0x44") =
    ([], 0) := by decide

/-- Stack-trace escaping (main.go:229-233): backslash, double quote, newline,
carriage return, tab, in that order. -/
def escapeStackTrace (s : List Char) : List Char :=
  replaceAllChar '\t' (gs "\\t")
    (replaceAllChar '\r' (gs "\\r")
      (replaceAllChar '\n' (gs "\\n")
        (replaceAllChar '"' (gs "\\\"")
          (replaceAllChar '\\' (gs "\\\\") s))))

/-- Message escaping (main.go:235): backslash then double quote only. -/
def escapeMessage (s : List Char) : List Char :=
  replaceAllChar '"' (gs "\\\"") (replaceAllChar '\\' (gs "\\\\") s)

/-- The escaping rule as §4.3 of the spec words it, for comparison with what
the code applies to each field: backslash → double-backslash, double-quote →
escaped quote, then newline, carriage return and tab → their two-character
sequences, in that exact order. -/
def specEscapeRule (s : List Char) : List Char :=
  replaceAllChar '\t' (gs "\\t")
    (replaceAllChar '\r' (gs "\\r")
      (replaceAllChar '\n' (gs "\\n")
        (replaceAllChar '"' (gs "\\\"")
          (replaceAllChar '\\' (gs "\\\\") s))))

/-- Per-character form of the full five-substitution rule. -/
def escFullChar (c : Char) : List Char :=
  if c = '\\' then gs "\\\\"
  else if c = '"' then gs "\\\""
  else if c = '\n' then gs "\\n"
  else if c = '\r' then gs "\\r"
  else if c = '\t' then gs "\\t"
  else [c]

/-- Per-character form of the two-substitution message escaping. -/
def escMsgChar (c : Char) : List Char :=
  if c = '\\' then gs "\\\\"
  else if c = '"' then gs "\\\""
  else [c]

example : escapeMessage (gs "a\nb") = gs "a\nb" := by decide
example : specEscapeRule (gs "a\nb") = gs "a\\nb" := by decide
example : escapeStackTrace (gs "a\"b\\c\nd") = gs "a\\\"b\\\\c\\nd" := by decide

/-- `fileJson` (main.go:238-241): "null" for an empty file name, else the
name quoted, with double quotes escaped. -/
def fileJsonOf (fileName : List Char) : List Char :=
  if fileName ≠ [] then gs "\"" ++ replaceAllChar '"' (gs "\\\"") fileName ++ gs "\""
  else gs "null"

/-- `lineJson` (main.go:243-246): the decimal number when positive, else "null". -/
def lineJsonOf (n : Int) : List Char :=
  if 0 < n then gs (toString n) else gs "null"

/-- The boardId field value (main.go:260-263): "null" when empty, else quoted. -/
def boardIdJsonOf (b : List Char) : List Char :=
  if b = [] then gs "null" else gs "\"" ++ b ++ gs "\""

/-- The request-path report payload (main.go:248-272): `fmt.Sprintf` of the
raw template (its literal newlines and indentation included) with the field
values interpolated. -/
def requestPayload (boardId ts fileName : List Char) (lineNumber : Int)
    (est em path method ua : List Char) : List Char :=
  gs "\x7b\n        \"boardId\":" ++ boardIdJsonOf boardId ++
  gs ",\n        \"timestamp\":\"" ++ ts ++
  gs "\",\n        \"file\":" ++ fileJsonOf fileName ++
  gs ",\n        \"line\":" ++ lineJsonOf lineNumber ++
  gs ",\n        \"stackTrace\":\"" ++ est ++
  gs "\",\n        \"message\":\"" ++ em ++
  gs "\",\n        \"exceptionType\":\"panic\",\n        \"requestPath\":\"" ++ path ++
  gs "\",\n        \"requestMethod\":\"" ++ method ++
  gs "\",\n        \"userAgent\":\"" ++ ua ++
  gs "\"\n    \x7d"

/-- `sendErrorToEndpoint`'s payload for a request failure: locate the frame,
escape the trace and the stringified panic value, fill the template. The
timestamp string stands for `time.Now().UTC().Format(time.RFC3339)`. -/
def sendErrorPayload (boardId : List Char) (r : GoRequest)
    (errValue stackTrace ts : List Char) : List Char :=
  let fl := sendErrorLocate stackTrace
  requestPayload boardId ts fl.1 fl.2 (escapeStackTrace stackTrace)
    (escapeMessage errValue) r.path r.method r.userAgent

/-- An HTTP response as the middleware shapes it. -/
structure HttpResponse where
  status : Nat
  contentType : List Char
  body : List Char

/-- What the wrapped handler does with a request: answer, or panic with a
value whose `fmt.Sprintf("%v", err)` form is `errValue`. -/
inductive HandlerOutcome where
  | ok (resp : HttpResponse)
  | panics (errValue : List Char)

/-- The 500 body (main.go:75): the stringified panic value is interpolated
verbatim into the JSON template, no escaping applied. -/
def panicResponseBody (errValue : List Char) : List Char :=
  gs "\x7b\"error\":\"An error occurred while processing your request\",\"message\":\"" ++
  errValue ++ gs "\"\x7d"

/-- `panicRecoveryMiddleware` (main.go:44-81) as seen by the caller: a normal
response passes through unchanged; a panic is recovered (the match is total,
nothing propagates) and answered with a 500 application/json response. The
reporting side channel (main.go:56-70) is modelled by `extractBoardId` and
`sendErrorPayload`; it does not alter the response. -/
def panicRecoveryMiddleware (next : GoRequest → HandlerOutcome) (r : GoRequest) :
    HttpResponse :=
  match next r with
  | .ok resp => resp
  | .panics e =>
    { status := 500, contentType := gs "application/json", body := panicResponseBody e }

/-- What one dispatch attempt runs into (main.go:275-291): request
construction fails, the network send fails, or a response arrives. -/
inductive HttpAttempt where
  | buildFailure
  | sendFailure
  | response (status : Nat)

/-- How `sendErrorToEndpoint` leaves each attempt (main.go:274-297): every
case is logged locally and the function returns; only a 200 response takes
the success branch. -/
inductive DispatchResult where
  | loggedCreateFailure
  | loggedSendFailure
  | loggedNon200 (status : Nat)
  | loggedSuccess (status : Nat)

/-- The dispatcher's classification of an attempt. Totality of this function
is the model of "never raises back to its caller": each constructor maps to
a logged, swallowed outcome. -/
def sendErrorDispatchResult : HttpAttempt → DispatchResult
  | .buildFailure => .loggedCreateFailure
  | .sendFailure => .loggedSendFailure
  | .response s => if s ≠ 200 then .loggedNon200 s else .loggedSuccess s

/-- Modelled from the spec: the standard JSON escape-sequence decoder, the
unescape half of §8's round-trip property. It decodes the two-character
escapes and four-digit \u escapes and fails (`none`) on a malformed escape
(trailing backslash, unknown escape letter, bad hex); any other character is
taken as itself. (Surrogate-pair combination is elided: a lone \uXXXX decodes
to its code point, which no theorem below reaches.) -/
def jsonEscDecode (e : Char) : Option Char :=
  if e = '"' then some '"'
  else if e = '\\' then some '\\'
  else if e = '/' then some '/'
  else if e = 'b' then some '\x08'
  else if e = 'f' then some '\x0c'
  else if e = 'n' then some '\n'
  else if e = 'r' then some '\r'
  else if e = 't' then some '\t'
  else none

/-- A hexadecimal digit, as JSON's \u escape admits it. -/
def isHexDigitChar (c : Char) : Bool :=
  ('0' ≤ c && c ≤ '9') || ('a' ≤ c && c ≤ 'f') || ('A' ≤ c && c ≤ 'F')

/-- Value of one hexadecimal digit. -/
def hexVal (c : Char) : Nat :=
  if '0' ≤ c && c ≤ '9' then c.toNat - 48
  else if 'a' ≤ c && c ≤ 'f' then c.toNat - 87
  else if 'A' ≤ c && c ≤ 'F' then c.toNat - 55
  else 0

/-- The standard JSON unescape over a whole string. -/
def jsonUnescape : List Char → Option (List Char)
  | [] => some []
  | c :: rest =>
    if c = '\\' then
      match rest with
      | [] => none
      | e :: rest2 =>
        if e = 'u' then
          match rest2 with
          | h1 :: h2 :: h3 :: h4 :: rest3 =>
            if isHexDigitChar h1 && isHexDigitChar h2 && isHexDigitChar h3 && isHexDigitChar h4 then
              (jsonUnescape rest3).map fun t =>
                Char.ofNat (((hexVal h1 * 16 + hexVal h2) * 16 + hexVal h3) * 16 + hexVal h4) :: t
            else none
          | _ => none
        else
          match jsonEscDecode e with
          | some d => (jsonUnescape rest2).map fun t => d :: t
          | none => none
    else (jsonUnescape rest).map fun t => c :: t

example : jsonUnescape (gs "a\\nb\\\\c\\\"d") = some (gs "a\nb\\c\"d") := by decide
example : jsonUnescape (gs "a\\") = none := by decide
example : jsonUnescape (gs "\\u0041") = some (gs "A") := by decide

/-- JSON insignificant whitespace. -/
def jpSkipWs (l : List Char) : List Char :=
  l.dropWhile fun c => c = ' ' || c = '\t' || c = '\n' || c = '\r'

/-- Modelled from the spec (C10 speaks of "a well-formed JSON document"): the
rest of a JSON string literal after its opening quote, per RFC 8259 — escapes
as `jsonUnescape` admits them, raw control characters below U+0020 rejected.
Returns the remainder after the closing quote. Fuel bounds the recursion; one
unit is spent per step, so `length + 1` always suffices. -/
def jpStringRest : Nat → List Char → Option (List Char)
  | 0, _ => none
  | fuel + 1, l =>
    match l with
    | [] => none
    | c :: rest =>
      if c = '"' then some rest
      else if c = '\\' then
        match rest with
        | [] => none
        | e :: rest2 =>
          if e = 'u' then
            match rest2 with
            | h1 :: h2 :: h3 :: h4 :: rest3 =>
              if isHexDigitChar h1 && isHexDigitChar h2 && isHexDigitChar h3 && isHexDigitChar h4 then
                jpStringRest fuel rest3
              else none
            | _ => none
          else if (jsonEscDecode e).isSome then jpStringRest fuel rest2
          else none
      else if c.toNat < 32 then none
      else jpStringRest fuel rest

/-- One or more decimal digits, returning the remainder. -/
def jpDigitsRest (l : List Char) : Option (List Char) :=
  match l with
  | c :: r => if c.isDigit then some (r.dropWhile Char.isDigit) else none
  | [] => none

/-- JSON integer part: '0', or a nonzero digit followed by digits. -/
def jpIntRest (l : List Char) : Option (List Char) :=
  match l with
  | '0' :: r => some r
  | c :: r => if c.isDigit then some (r.dropWhile Char.isDigit) else none
  | [] => none

/-- JSON optional fraction part. -/
def jpFracRest (l : List Char) : Option (List Char) :=
  match l with
  | '.' :: r => jpDigitsRest r
  | _ => some l

/-- JSON optional exponent part. -/
def jpExpRest (l : List Char) : Option (List Char) :=
  match l with
  | 'e' :: r =>
    (match r with
     | '+' :: t => jpDigitsRest t
     | '-' :: t => jpDigitsRest t
     | _ => jpDigitsRest r)
  | 'E' :: r =>
    (match r with
     | '+' :: t => jpDigitsRest t
     | '-' :: t => jpDigitsRest t
     | _ => jpDigitsRest r)
  | _ => some l

/-- A JSON number, returning the remainder. -/
def jpNumber (l : List Char) : Option (List Char) :=
  let l1 := match l with | '-' :: r => r | _ => l
  (jpIntRest l1).bind fun r2 => (jpFracRest r2).bind jpExpRest

mutual

/-- A JSON value (object, array, string, number, true/false/null), returning
the remainder after it; leading whitespace allowed. -/
def jpValue : Nat → List Char → Option (List Char)
  | 0, _ => none
  | fuel + 1, l =>
    let l2 := jpSkipWs l
    if hasPrefixL l2 (gs "true") then some (l2.drop 4)
    else if hasPrefixL l2 (gs "false") then some (l2.drop 5)
    else if hasPrefixL l2 (gs "null") then some (l2.drop 4)
    else
      match l2 with
      | '\x7b' :: r => jpObjFirst fuel r
      | '[' :: r => jpArrFirst fuel r
      | '"' :: r => jpStringRest (r.length + 1) r
      | _ => jpNumber l2

/-- After '\x7b': an empty object or the first member. -/
def jpObjFirst : Nat → List Char → Option (List Char)
  | 0, _ => none
  | fuel + 1, l =>
    match jpSkipWs l with
    | '\x7d' :: r => some r
    | '"' :: r =>
      match jpStringRest (r.length + 1) r with
      | some r2 =>
        (match jpSkipWs r2 with
         | ':' :: r3 =>
           match jpValue fuel r3 with
           | some r4 => jpObjMore fuel r4
           | none => none
         | _ => none)
      | none => none
    | _ => none

/-- After a member: '\x7d' ends the object, ',' introduces another member. -/
def jpObjMore : Nat → List Char → Option (List Char)
  | 0, _ => none
  | fuel + 1, l =>
    match jpSkipWs l with
    | '\x7d' :: r => some r
    | ',' :: r =>
      (match jpSkipWs r with
       | '"' :: r1 =>
         match jpStringRest (r1.length + 1) r1 with
         | some r2 =>
           (match jpSkipWs r2 with
            | ':' :: r3 =>
              match jpValue fuel r3 with
              | some r4 => jpObjMore fuel r4
              | none => none
            | _ => none)
         | none => none
       | _ => none)
    | _ => none

/-- After '[': an empty array or the first element. -/
def jpArrFirst : Nat → List Char → Option (List Char)
  | 0, _ => none
  | fuel + 1, l =>
    match jpSkipWs l with
    | ']' :: r => some r
    | _ =>
      match jpValue fuel l with
      | some r => jpArrMore fuel r
      | none => none

/-- After an element: ']' ends the array, ',' introduces another element. -/
def jpArrMore : Nat → List Char → Option (List Char)
  | 0, _ => none
  | fuel + 1, l =>
    match jpSkipWs l with
    | ']' :: r => some r
    | ',' :: r =>
      (match jpValue fuel r with
       | some r2 => jpArrMore fuel r2
       | none => none)
    | _ => none

end

/-- Modelled from the spec: a well-formed JSON document is one value followed
only by whitespace (RFC 8259). The fuel `length + 1` is ample: every
recursive step first consumes at least one character. -/
def isValidJson (l : List Char) : Bool :=
  match jpValue (l.length + 1) l with
  | some r => (jpSkipWs r).isEmpty
  | none => false

example : isValidJson (gs "\x7b\"a\":1,\"b\":[true,null,\"x\\n\"]\x7d") = true := by decide
example : isValidJson (gs "\x7b\"a\":1,\x7d") = false := by decide
example : isValidJson (panicResponseBody (gs "division by zero")) = true := by decide
example : isValidJson (panicResponseBody (gs "a\"b")) = false := by decide
example : isValidJson (panicResponseBody (gs "\\\\")) = true := by decide
example : isValidJson (panicResponseBody (gs "\t")) = false := by decide

/-- The startup paths' simpler line scan (main.go:631-649 and 725-743): any
line after the first containing ".go:" is split on ':' untrimmed; the
trimmed last part must parse as an integer (no offset stripping here), and
the first such line wins. No machinery or standard-library filtering. -/
def startupScan : List (List Char) → List Char × Int
  | [] => ([], 0)
  | line :: rest =>
    if containsL line (gs ".go:") then
      let parts := splitChar ':' line
      if 2 ≤ parts.length then
        match goAtoi (goTrimSpace (parts.getLastD [])) with
        | some n =>
          (lastSegment (goTrimSpace (List.intercalate [':'] parts.dropLast)), n)
        | none => startupScan rest
      else startupScan rest
    else startupScan rest

/-- Startup trace location: split on newlines; the line at index 0 is never a
frame (`i > 0` in the source). -/
def startupLocate (t : List Char) : List Char × Int :=
  match splitChar '\n' t with
  | [] => ([], 0)
  | _first :: rest => startupScan rest

/-- Payload of the recovered startup-panic path (main.go:670-691): same field
escaping as the request path, `exceptionType` fixed to "panic", sentinel
request metadata STARTUP/STARTUP/STARTUP_ERROR, the template's literal
indentation preserved. -/
def startupPanicPayload (boardId ts stackTrace errValue : List Char) : List Char :=
  let fl := startupLocate stackTrace
  gs "\x7b\n                        \"boardId\":" ++ boardIdJsonOf boardId ++
  gs ",\n                        \"timestamp\":\"" ++ ts ++
  gs "\",\n                        \"file\":" ++ fileJsonOf fl.1 ++
  gs ",\n                        \"line\":" ++ lineJsonOf fl.2 ++
  gs ",\n                        \"stackTrace\":\"" ++ escapeStackTrace stackTrace ++
  gs "\",\n                        \"message\":\"" ++ escapeMessage errValue ++
  gs "\",\n                        \"exceptionType\":\"panic\",\n                        \"requestPath\":\"STARTUP\",\n                        \"requestMethod\":\"STARTUP\",\n                        \"userAgent\":\"STARTUP_ERROR\"\n                    \x7d"

/-- Payload of the listen/bind failure path (main.go:764-785): identical
fields but `exceptionType` fixed to "error". -/
def listenFailurePayload (boardId ts stackTrace errValue : List Char) : List Char :=
  let fl := startupLocate stackTrace
  gs "\x7b\n                    \"boardId\":" ++ boardIdJsonOf boardId ++
  gs ",\n                    \"timestamp\":\"" ++ ts ++
  gs "\",\n                    \"file\":" ++ fileJsonOf fl.1 ++
  gs ",\n                    \"line\":" ++ lineJsonOf fl.2 ++
  gs ",\n                    \"stackTrace\":\"" ++ escapeStackTrace stackTrace ++
  gs "\",\n                    \"message\":\"" ++ escapeMessage errValue ++
  gs "\",\n                    \"exceptionType\":\"error\",\n                    \"requestPath\":\"STARTUP\",\n                    \"requestMethod\":\"STARTUP\",\n                    \"userAgent\":\"STARTUP_ERROR\"\n                \x7d"

/-- What a startup-failure path leaves behind: the report it launched (none
when no endpoint is configured) and the process exit code. -/
structure StartupOutcome where
  reportPayload : Option (List Char)
  exitCode : Nat

/-- The deferred recover in `main` (main.go:615-707): on a startup panic,
spawn the report when `RUNTIME_ERROR_ENDPOINT_URL` is set, then `os.Exit(1)`. -/
def startupPanicHandler (endpointUrl boardId ts stackTrace errValue : List Char) :
    StartupOutcome :=
  { reportPayload :=
      if endpointUrl ≠ [] then some (startupPanicPayload boardId ts stackTrace errValue)
      else none,
    exitCode := 1 }

/-- The `ListenAndServe` error path (main.go:709-800): on a bind/listen
failure, spawn the report when the endpoint is set, then `os.Exit(1)`. -/
def listenFailureHandler (endpointUrl boardId ts stackTrace errValue : List Char) :
    StartupOutcome :=
  { reportPayload :=
      if endpointUrl ≠ [] then some (listenFailurePayload boardId ts stackTrace errValue)
      else none,
    exitCode := 1 }

example :
    containsL (startupPanicPayload [] (gs "T") (gs "x") (gs "boom"))
      (gs "\"exceptionType\":\"panic\"") = true := by decide

example :
    containsL (startupPanicPayload [] (gs "T") (gs "x") (gs "boom"))
      (gs "\"exceptionType\":\"error\"") = false := by decide

theorem hasPrefixL_nil : ∀ (l : List Char), hasPrefixL l [] = true := by
  intro l; cases l <;> rfl

theorem hasPrefixL_extend : ∀ (l p t : List Char),
    hasPrefixL l p = true → hasPrefixL (l ++ t) p = true := by
  intro l p
  induction p generalizing l with
  | nil => intro t _; exact hasPrefixL_nil _
  | cons q ps ih =>
    intro t h
    cases l with
    | nil => simp [hasPrefixL] at h
    | cons c cs =>
      rw [hasPrefixL, Bool.and_eq_true] at h
      rw [List.cons_append, hasPrefixL, Bool.and_eq_true]
      exact ⟨h.1, ih cs t h.2⟩

theorem hasPrefixL_glue : ∀ (a b p : List Char),
    hasPrefixL b p = true → hasPrefixL (a ++ b) (a ++ p) = true := by
  intro a b p h
  induction a with
  | nil => simpa using h
  | cons c t ih =>
    rw [List.cons_append, List.cons_append, hasPrefixL, Bool.and_eq_true]
    exact ⟨by simp, ih⟩

theorem contains_of_prefixL : ∀ (l p : List Char),
    hasPrefixL l p = true → containsL l p = true := by
  intro l p h
  cases l with
  | nil =>
    cases p with
    | nil => rfl
    | cons q ps => simp [hasPrefixL] at h
  | cons c cs => rw [containsL, Bool.or_eq_true]; exact Or.inl h

theorem containsL_append_right : ∀ (s t sub : List Char),
    containsL t sub = true → containsL (s ++ t) sub = true := by
  intro s t sub h
  induction s with
  | nil => simpa using h
  | cons c cs ih =>
    rw [List.cons_append, containsL, Bool.or_eq_true]
    exact Or.inr ih

theorem containsL_append_left : ∀ (s t sub : List Char),
    containsL s sub = true → containsL (s ++ t) sub = true := by
  intro s t sub h
  induction s with
  | nil =>
    cases sub with
    | nil =>
      cases t with
      | nil => rfl
      | cons c cs => rw [List.nil_append, containsL, Bool.or_eq_true]; exact Or.inl rfl
    | cons q ps => simp [containsL] at h
  | cons c cs ih =>
    rw [containsL, Bool.or_eq_true] at h
    rw [List.cons_append, containsL, Bool.or_eq_true]
    rcases h with h | h
    · exact Or.inl (hasPrefixL_extend _ _ _ h)
    · exact Or.inr (ih h)

/-- Join lines with newline separators, the inverse image used to build
concrete traces. -/
def joinNL : List (List Char) → List Char
  | [] => []
  | [l] => l
  | l :: ls => l ++ '\n' :: joinNL ls

theorem splitChar_no_sep : ∀ (sep : Char) (l : List Char),
    sep ∉ l → splitChar sep l = [l] := by
  intro sep l
  induction l with
  | nil => intro _; rfl
  | cons c t ih =>
    intro h
    rw [splitChar, if_neg (by simp at h; exact fun e => h.1 e.symm), ih (by simp at h; exact h.2)]

theorem splitChar_append_cons : ∀ (sep : Char) (l r : List Char),
    sep ∉ l → splitChar sep (l ++ sep :: r) = l :: splitChar sep r := by
  intro sep l r
  induction l with
  | nil =>
    intro _
    rw [List.nil_append, splitChar, if_pos rfl]
  | cons c t ih =>
    intro h
    simp only [List.mem_cons, not_or] at h
    rw [List.cons_append, splitChar, if_neg (fun e => h.1 e.symm), ih h.2]

theorem splitChar_joinNL : ∀ (L : List (List Char)), L ≠ [] →
    (∀ l ∈ L, ('\n' : Char) ∉ l) → splitChar '\n' (joinNL L) = L := by
  intro L
  induction L with
  | nil => intro h _; exact absurd rfl h
  | cons l ls ih =>
    intro _ hfree
    cases ls with
    | nil =>
      rw [joinNL]
      exact splitChar_no_sep '\n' l (hfree l (by simp))
    | cons m ms =>
      rw [joinNL, splitChar_append_cons '\n' l _ (hfree l (by simp))]
      rw [ih (List.cons_ne_nil m ms) (fun x hx => hfree x (List.mem_cons_of_mem l hx))]
      exact List.cons_ne_nil m ms

/-- Claim C2's per-frame rejection condition: the descriptor line (the
previous line) names the recovery machinery, or the frame's file path lies
under a recognized standard-library/runtime prefix. -/
def frameRejected (prev line : List Char) : Bool :=
  isMachineryLine prev || isStdLibPath (filePathOfLine line)

/-- Every frame of the line list (a non-"goroutine" line containing ".go:")
is rejected, scanning with the previous line at hand. -/
def allFramesRejected : List Char → List (List Char) → Bool
  | _, [] => true
  | prev, line :: rest =>
    (if hasPrefixL line (gs "goroutine") then true
     else if containsL line (gs ".go:") then frameRejected prev line
     else true) && allFramesRejected line rest

/-- The same condition over a whole trace text (the first line is never a
frame, matching `i > 0` in the source). -/
def allFramesRejectedText (t : List Char) : Bool :=
  match splitChar '\n' t with
  | [] => true
  | first :: rest => allFramesRejected first rest

theorem locateScan_rejected : ∀ (lines : List (List Char)) (prev : List Char),
    allFramesRejected prev lines = true → locateScan prev lines = ([], 0) := by
  intro lines
  induction lines with
  | nil => intro prev _; rfl
  | cons line rest ih =>
    intro prev h
    rw [allFramesRejected, Bool.and_eq_true] at h
    obtain ⟨h1, h2⟩ := h
    rw [locateScan]
    by_cases hg : hasPrefixL line (gs "goroutine") = true
    · rw [if_pos hg]; exact ih line h2
    · rw [if_neg hg]
      by_cases hgo : containsL line (gs ".go:") = true
      · rw [if_pos hgo]
        rw [if_neg hg, if_pos hgo] at h1
        rw [frameRejected, Bool.or_eq_true] at h1
        by_cases hm : isMachineryLine prev = true
        · rw [if_pos hm]; exact ih line h2
        · rw [if_neg hm]
          have hstd : isStdLibPath (filePathOfLine line) = true := by
            rcases h1 with h1 | h1
            · exact absurd h1 hm
            · exact h1
          by_cases hlen : 2 ≤ (splitChar ':' (goTrimSpace line)).length
          · rw [if_pos hlen]
            simp only [filePathOfLine] at hstd
            simp only [hstd, if_true]
            exact ih line h2
          · rw [if_neg hlen]; exact ih line h2
      · rw [if_neg hgo]; exact ih line h2

/-- A machinery frame's descriptor line, as the recovery middleware's own
frames appear in a trace. -/
def machDescLine : List Char := gs "main.panicRecoveryMiddleware.func1.1(0x14000113800)"

/-- A machinery frame's file line. -/
def machFileLine : List Char := gs "\t/app/main.go:61 +0x25"

/-- The qualifying application frame's descriptor line. -/
def appDescLine : List Char := gs "main.testHandler(0x14000113800)"

/-- The qualifying application frame's file line: app.go line 42. -/
def appFileLine : List Char := gs "\t/app/app.go:42 +0x1c"

/-- N machinery frames. -/
def machFrames : Nat → List (List Char)
  | 0 => []
  | n + 1 => machDescLine :: machFileLine :: machFrames n

/-- The lines of a trace with N machinery frames, then one application frame. -/
def traceLinesN (n : Nat) : List (List Char) :=
  gs "goroutine 1 [running]:" :: (machFrames n ++ [appDescLine, appFileLine])

/-- The trace text with N machinery frames, then one application frame. -/
def traceTextN (n : Nat) : List Char := joinNL (traceLinesN n)

theorem locateScan_machStep (prev : List Char) (rest : List (List Char)) :
    locateScan prev (machDescLine :: machFileLine :: rest) = locateScan machFileLine rest := by
  have e1 : hasPrefixL machDescLine (gs "goroutine") = false := by decide
  have e2 : containsL machDescLine (gs ".go:") = false := by decide
  have e3 : hasPrefixL machFileLine (gs "goroutine") = false := by decide
  have e4 : containsL machFileLine (gs ".go:") = true := by decide
  have e5 : isMachineryLine machDescLine = true := by decide
  rw [locateScan, if_neg (by rw [e1]; exact Bool.false_ne_true),
    if_neg (by rw [e2]; exact Bool.false_ne_true)]
  rw [locateScan, if_neg (by rw [e3]; exact Bool.false_ne_true), if_pos e4, if_pos e5]

theorem locateScan_appBase (prev : List Char) :
    locateScan prev [appDescLine, appFileLine] = (gs "app.go", 42) := by
  have e1 : hasPrefixL appDescLine (gs "goroutine") = false := by decide
  have e2 : containsL appDescLine (gs ".go:") = false := by decide
  rw [locateScan, if_neg (by rw [e1]; exact Bool.false_ne_true),
    if_neg (by rw [e2]; exact Bool.false_ne_true)]
  decide

theorem locateScan_machFrames : ∀ (n : Nat) (prev : List Char),
    locateScan prev (machFrames n ++ [appDescLine, appFileLine]) = (gs "app.go", 42) := by
  intro n
  induction n with
  | zero => intro prev; exact locateScan_appBase prev
  | succ m ih =>
    intro prev
    rw [machFrames, List.cons_append, List.cons_append, locateScan_machStep]
    exact ih machFileLine

theorem machFrames_nlFree : ∀ (n : Nat), ∀ l ∈ machFrames n, ('\n' : Char) ∉ l := by
  intro n
  induction n with
  | zero => intro l hl; simp [machFrames] at hl
  | succ m ih =>
    intro l hl
    rw [machFrames] at hl
    rcases List.mem_cons.mp hl with rfl | hl
    · decide
    · rcases List.mem_cons.mp hl with rfl | hl
      · decide
      · exact ih l hl

theorem traceLinesN_nlFree : ∀ (n : Nat), ∀ l ∈ traceLinesN n, ('\n' : Char) ∉ l := by
  intro n l hl
  rw [traceLinesN] at hl
  rcases List.mem_cons.mp hl with rfl | hl
  · decide
  · rcases List.mem_append.mp hl with hm | ha
    · exact machFrames_nlFree n l hm
    · rcases List.mem_cons.mp ha with rfl | ha
      · decide
      · rcases List.mem_cons.mp ha with rfl | ha
        · decide
        · simp at ha

theorem sendErrorLocate_traceTextN (n : Nat) :
    sendErrorLocate (traceTextN n) = (gs "app.go", 42) := by
  rw [sendErrorLocate, traceTextN,
    splitChar_joinNL (traceLinesN n) (by rw [traceLinesN]; exact List.cons_ne_nil _ _)
      (traceLinesN_nlFree n)]
  rw [traceLinesN]
  exact locateScan_machFrames n _

example : sendErrorLocate (traceTextN 0) = (gs "app.go", 42) := by decide
example : sendErrorLocate (traceTextN 3) = (gs "app.go", 42) := by decide

theorem replaceAllChar_append (p : Char) (r : List Char) :
    ∀ a b, replaceAllChar p r (a ++ b) = replaceAllChar p r a ++ replaceAllChar p r b := by
  intro a b
  induction a with
  | nil => rfl
  | cons c t ih => by_cases h : c = p <;> simp [replaceAllChar, h, ih]

theorem replaceAllChar_head (p : Char) (r : List Char) (c : Char) (t : List Char) :
    replaceAllChar p r (c :: t) =
      (if c = p then r else [c]) ++ replaceAllChar p r t := by
  by_cases h : c = p <;> simp [replaceAllChar, h]

theorem chainEscFull (c : Char) :
    replaceAllChar '\t' (gs "\\t") (replaceAllChar '\r' (gs "\\r")
      (replaceAllChar '\n' (gs "\\n") (replaceAllChar '"' (gs "\\\"")
        (if c = '\\' then gs "\\\\" else [c])))) = escFullChar c := by
  by_cases h1 : c = '\\'
  · subst h1; decide
  · rw [if_neg h1]
    by_cases h2 : c = '"'
    · subst h2; decide
    · by_cases h3 : c = '\n'
      · subst h3; decide
      · by_cases h4 : c = '\r'
        · subst h4; decide
        · by_cases h5 : c = '\t'
          · subst h5; decide
          · simp [replaceAllChar, escFullChar, h1, h2, h3, h4, h5]

theorem chainEscMsg (c : Char) :
    replaceAllChar '"' (gs "\\\"") (if c = '\\' then gs "\\\\" else [c]) = escMsgChar c := by
  by_cases h1 : c = '\\'
  · subst h1; decide
  · rw [if_neg h1]
    by_cases h2 : c = '"'
    · subst h2; decide
    · simp [replaceAllChar, escMsgChar, h1, h2]

theorem escapeStackTrace_eq : ∀ (s : List Char),
    escapeStackTrace s = concatMapChar escFullChar s := by
  intro s
  induction s with
  | nil => rfl
  | cons c t ih =>
    show replaceAllChar '\t' (gs "\\t") (replaceAllChar '\r' (gs "\\r")
      (replaceAllChar '\n' (gs "\\n") (replaceAllChar '"' (gs "\\\"")
        (replaceAllChar '\\' (gs "\\\\") (c :: t))))) = concatMapChar escFullChar (c :: t)
    rw [replaceAllChar_head, replaceAllChar_append, replaceAllChar_append,
      replaceAllChar_append, replaceAllChar_append, chainEscFull]
    have ht : replaceAllChar '\t' (gs "\\t") (replaceAllChar '\r' (gs "\\r")
        (replaceAllChar '\n' (gs "\\n") (replaceAllChar '"' (gs "\\\"")
          (replaceAllChar '\\' (gs "\\\\") t)))) = escapeStackTrace t := rfl
    rw [ht, ih, concatMapChar]

theorem escapeMessage_eq : ∀ (s : List Char),
    escapeMessage s = concatMapChar escMsgChar s := by
  intro s
  induction s with
  | nil => rfl
  | cons c t ih =>
    show replaceAllChar '"' (gs "\\\"")
      (replaceAllChar '\\' (gs "\\\\") (c :: t)) = concatMapChar escMsgChar (c :: t)
    rw [replaceAllChar_head, replaceAllChar_append, chainEscMsg]
    have ht : replaceAllChar '"' (gs "\\\"")
        (replaceAllChar '\\' (gs "\\\\") t) = escapeMessage t := rfl
    rw [ht, ih, concatMapChar]

theorem jsonUnescape_cons_ne (c : Char) (rest : List Char) (h : ¬ c = '\\') :
    jsonUnescape (c :: rest) = (jsonUnescape rest).map fun t => c :: t := by
  rw [jsonUnescape.eq_def]
  simp only [if_neg h]

theorem jsonUnescape_escaped (e d : Char) (l : List Char)
    (hu : ¬ e = 'u') (hd : jsonEscDecode e = some d) :
    jsonUnescape ('\\' :: e :: l) = (jsonUnescape l).map fun t => d :: t := by
  rw [jsonUnescape.eq_def]
  simp only [if_pos rfl, if_neg hu, hd]
  simp

theorem jsonUnescape_escFull (c : Char) (l : List Char) :
    jsonUnescape (escFullChar c ++ l) = (jsonUnescape l).map fun t => c :: t := by
  by_cases h1 : c = '\\'
  · subst h1
    show jsonUnescape ('\\' :: '\\' :: l) = _
    exact jsonUnescape_escaped '\\' '\\' l (by decide) (by decide)
  · by_cases h2 : c = '"'
    · subst h2
      show jsonUnescape ('\\' :: '"' :: l) = _
      exact jsonUnescape_escaped '"' '"' l (by decide) (by decide)
    · by_cases h3 : c = '\n'
      · subst h3
        show jsonUnescape ('\\' :: 'n' :: l) = _
        exact jsonUnescape_escaped 'n' '\n' l (by decide) (by decide)
      · by_cases h4 : c = '\r'
        · subst h4
          show jsonUnescape ('\\' :: 'r' :: l) = _
          exact jsonUnescape_escaped 'r' '\r' l (by decide) (by decide)
        · by_cases h5 : c = '\t'
          · subst h5
            show jsonUnescape ('\\' :: 't' :: l) = _
            exact jsonUnescape_escaped 't' '\t' l (by decide) (by decide)
          · rw [escFullChar, if_neg h1, if_neg h2, if_neg h3, if_neg h4, if_neg h5]
            rw [List.singleton_append]
            exact jsonUnescape_cons_ne c l h1

theorem jsonUnescape_escMsg (c : Char) (l : List Char) :
    jsonUnescape (escMsgChar c ++ l) = (jsonUnescape l).map fun t => c :: t := by
  by_cases h1 : c = '\\'
  · subst h1
    show jsonUnescape ('\\' :: '\\' :: l) = _
    exact jsonUnescape_escaped '\\' '\\' l (by decide) (by decide)
  · by_cases h2 : c = '"'
    · subst h2
      show jsonUnescape ('\\' :: '"' :: l) = _
      exact jsonUnescape_escaped '"' '"' l (by decide) (by decide)
    · rw [escMsgChar, if_neg h1, if_neg h2]
      rw [List.singleton_append]
      exact jsonUnescape_cons_ne c l h1

theorem jsonUnescape_concatFull : ∀ (s : List Char),
    jsonUnescape (concatMapChar escFullChar s) = some s := by
  intro s
  induction s with
  | nil => rfl
  | cons c t ih => rw [concatMapChar, jsonUnescape_escFull, ih]; rfl

theorem jsonUnescape_concatMsg : ∀ (s : List Char),
    jsonUnescape (concatMapChar escMsgChar s) = some s := by
  intro s
  induction s with
  | nil => rfl
  | cons c t ih => rw [concatMapChar, jsonUnescape_escMsg, ih]; rfl

theorem extractBoardId_eq_cascade (r : GoRequest) (env : GoEnv) :
    extractBoardId r env = resolverCascade r env := by
  rw [extractBoardId, resolverCascade]
  by_cases hq : r.queryBoardId ≠ []
  · rw [if_pos hq, if_pos hq]
  · rw [if_neg hq, if_neg hq]
    by_cases hh : r.headerBoardId ≠ []
    · rw [if_pos hh, if_pos hh]
    · rw [if_neg hh, if_neg hh]
      by_cases he : env.boardIdEnv ≠ []
      · rw [if_pos he, if_pos he]
      · rw [if_neg he, if_neg he]
        have hhost :
            (if r.host ≠ [] then
              match indexOfSub (goToLower r.host) (gs "webapi") with
              | some idx =>
                let remaining := r.host.drop (idx + 6)
                if 24 ≤ remaining.length then
                  let boardId := remaining.take 24
                  if isValidHex boardId then boardId else []
                else []
              | none => []
            else []) = extractFromPattern r.host := by
          rw [extractFromPattern]
        have hurl :
            (if env.endpointUrl ≠ [] then
              match indexOfSub (goToLower env.endpointUrl) (gs "webapi") with
              | some idx =>
                let remaining := env.endpointUrl.drop (idx + 6)
                if 24 ≤ remaining.length then
                  let boardId := remaining.take 24
                  if isValidHex boardId then boardId else []
                else []
              | none => []
            else []) = extractFromPattern env.endpointUrl := by
          rw [extractFromPattern]
        rw [hhost, hurl]

/-- C1: for every request whose wrapped handler panics, the recovery
middleware recovers (the result is a total function of the handler outcome;
nothing propagates) and answers HTTP 500 with Content-Type application/json,
the body carrying the fixed generic error field and a message field holding
the stringified panic value. -/
theorem c1_recovery_response (next : GoRequest → HandlerOutcome) (r : GoRequest)
    (e : List Char) (h : next r = .panics e) :
    (panicRecoveryMiddleware next r).status = 500
    ∧ (panicRecoveryMiddleware next r).contentType = gs "application/json"
    ∧ (panicRecoveryMiddleware next r).body =
        gs "\x7b\"error\":\"An error occurred while processing your request\",\"message\":\"" ++
          e ++ gs "\"\x7d"
    ∧ containsL (panicRecoveryMiddleware next r).body
        (gs "\"error\":\"An error occurred while processing your request\"") = true := by
  rw [panicRecoveryMiddleware, h]
  refine ⟨rfl, rfl, rfl, ?_⟩
  have h1 : containsL
      (gs "\x7b\"error\":\"An error occurred while processing your request\",\"message\":\"")
      (gs "\"error\":\"An error occurred while processing your request\"") = true := by decide
  exact containsL_append_left _ _ _ (containsL_append_left _ _ _ h1)

/-- A handler that always panics with message "division by zero". -/
def crashingHandler : GoRequest → HandlerOutcome :=
  fun _ => .panics (gs "division by zero")

/-- A plain request used to instantiate the middleware theorems. -/
def sampleRequest : GoRequest :=
  ⟨[], gs "deadbeefdeadbeefdeadbeef", [], gs "/api/test", gs "GET", gs "test-agent"⟩

/-- C1 witness: the middleware's answer to the spec's scenario handler. -/
theorem c1_recovery_response_witness :
    (panicRecoveryMiddleware crashingHandler sampleRequest).status = 500
    ∧ (panicRecoveryMiddleware crashingHandler sampleRequest).contentType =
        gs "application/json"
    ∧ (panicRecoveryMiddleware crashingHandler sampleRequest).body =
        gs "\x7b\"error\":\"An error occurred while processing your request\",\"message\":\"" ++
          gs "division by zero" ++ gs "\"\x7d"
    ∧ containsL (panicRecoveryMiddleware crashingHandler sampleRequest).body
        (gs "\"error\":\"An error occurred while processing your request\"") = true :=
  c1_recovery_response crashingHandler sampleRequest (gs "division by zero") rfl

/-- C7: the Tenant Resolver equals the five-source priority cascade
(query parameter, header, environment variable, host pattern, endpoint-URL
pattern, first non-empty wins), and is absent exactly when every source is
absent; in particular a request carrying both a query parameter and a header
value resolves to the query-parameter value. -/
theorem c7_resolver_priority (r : GoRequest) (env : GoEnv) :
    extractBoardId r env = resolverCascade r env
    ∧ (extractBoardId r env = [] ↔
        r.queryBoardId = [] ∧ r.headerBoardId = [] ∧ env.boardIdEnv = [] ∧
        extractFromPattern r.host = [] ∧ extractFromPattern env.endpointUrl = [])
    ∧ (r.queryBoardId ≠ [] → extractBoardId r env = r.queryBoardId) := by
  refine ⟨extractBoardId_eq_cascade r env, ?_, ?_⟩
  · rw [extractBoardId_eq_cascade r env, resolverCascade]
    split_ifs with h1 h2 h3 h4 <;> simp_all
  · intro hq
    rw [extractBoardId_eq_cascade r env, resolverCascade, if_pos hq]

/-- C9: the dispatcher classifies exactly a 200 response as success;
request-construction failure, network failure, and every non-200 status map
to a logged, swallowed outcome. The classification is a total function of
the attempt: every input returns normally to the caller. -/
theorem c9_dispatch_classification :
    (∀ a, (∃ s, sendErrorDispatchResult a = .loggedSuccess s) ↔ a = .response 200)
    ∧ (∀ s, s ≠ 200 → sendErrorDispatchResult (.response s) = .loggedNon200 s)
    ∧ sendErrorDispatchResult .buildFailure = .loggedCreateFailure
    ∧ sendErrorDispatchResult .sendFailure = .loggedSendFailure := by
  refine ⟨?_, ?_, rfl, rfl⟩
  · intro a
    cases a with
    | buildFailure => simp [sendErrorDispatchResult]
    | sendFailure => simp [sendErrorDispatchResult]
    | response s =>
      by_cases h : s = 200
      · subst h; simp [sendErrorDispatchResult]
      · simp [sendErrorDispatchResult, h]
  · intro s h
    simp [sendErrorDispatchResult, h]

/-- C10 counterexample: the claim predicts an ill-formed body for every
panic string containing a backslash, but the two-backslash panic value gives
a well-formed JSON document. -/
theorem c10_counterexample :
    ('\\' ∈ gs "\\\\")
    ∧ isValidJson (panicResponseBody (gs "\\\\")) = true := by
  refine ⟨by decide, by decide⟩

/-- C10 amended: the stringified panic value is interpolated verbatim into
the 500 body, with no escaping; a lone double quote, a lone backslash, or a
raw control character therefore breaks well-formedness, but not every value
containing a quote, backslash, or control character does (two backslashes,
or a backslash-quote pair, happen to read as valid escapes). -/
theorem c10_verbatim_no_escaping :
    (∀ e, panicResponseBody e =
      gs "\x7b\"error\":\"An error occurred while processing your request\",\"message\":\"" ++
        e ++ gs "\"\x7d")
    ∧ isValidJson (panicResponseBody (gs "\"")) = false
    ∧ isValidJson (panicResponseBody (gs "\\")) = false
    ∧ isValidJson (panicResponseBody (gs "\t")) = false
    ∧ isValidJson (panicResponseBody (gs "\\\"")) = true := by
  exact ⟨fun e => rfl, by decide, by decide, by decide, by decide⟩

/-- C4 counterexample: the message field does not receive the full escaping
rule — a newline in the message survives unescaped. -/
theorem c4_counterexample :
    escapeMessage (gs "a\nb") ≠ specEscapeRule (gs "a\nb") := by decide

/-- C4 amended: the full five-substitution rule (backslash, double quote,
newline, carriage return, tab, in that order) is applied to the stack trace;
the message receives only the backslash and double-quote substitutions, so
newline, carriage return and tab stay verbatim in the message field. -/
theorem c4_escaping_fields :
    (∀ s, escapeStackTrace s = specEscapeRule s)
    ∧ (∀ s, escapeStackTrace s = concatMapChar escFullChar s)
    ∧ (∀ s, escapeMessage s = concatMapChar escMsgChar s)
    ∧ escapeMessage (gs "\n") = gs "\n"
    ∧ specEscapeRule (gs "\n") = gs "\\n" := by
  exact ⟨fun _ => rfl, escapeStackTrace_eq, escapeMessage_eq, by decide, by decide⟩

/-- C5: the encoder's escaping followed by the standard JSON unescape (the
escape-sequence decoder) reproduces the original string character for
character, for the stack-trace escaping and for the message escaping, on
every string. -/
theorem c5_escape_roundtrip :
    (∀ s, jsonUnescape (escapeStackTrace s) = some s)
    ∧ (∀ s, jsonUnescape (escapeMessage s) = some s) := by
  constructor
  · intro s
    rw [escapeStackTrace_eq]
    exact jsonUnescape_concatFull s
  · intro s
    rw [escapeMessage_eq]
    exact jsonUnescape_concatMsg s

/-- C2 counterexample: a frame whose trailing text parses as the negative
integer -3 is still accepted — the locator returns the file name together
with the non-positive line, where the claim's reading (a frame's line is
parsed as a positive integer) would return an absent file and line. -/
theorem c2_counterexample :
    sendErrorLocate (gs "goroutine 1 [running]:\nmain.appHandler()\n\t/app/a.go:-3") =
      (gs "a.go", -3)
    ∧ ¬ (0 : Int) < -3
    ∧ gs "a.go" ≠ [] := by
  refine ⟨by decide, by decide, by decide⟩

/-- C2 amended: if every frame (a non-"goroutine" line containing ".go:",
never the first line) has a machinery descriptor or a standard-library path,
the locator returns absent file and line; an accepted frame's trailing text
is parsed by `strconv.Atoi`, which also accepts non-positive integers and
returns them as-is; in particular a trace with exactly one qualifying
application frame (at app.go:42) after N machinery frames locates that frame
for every N. -/
theorem c2_trace_locator :
    (∀ t, allFramesRejectedText t = true → sendErrorLocate t = ([], 0))
    ∧ (∀ n, sendErrorLocate (traceTextN n) = (gs "app.go", 42))
    ∧ sendErrorLocate (gs "goroutine 1 [running]:\nmain.appHandler()\n\t/app/a.go:-3") =
        (gs "a.go", -3) := by
  refine ⟨?_, sendErrorLocate_traceTextN, by decide⟩
  intro t h
  rw [allFramesRejectedText] at h
  rw [sendErrorLocate]
  cases hs : splitChar '\n' t with
  | nil => rfl
  | cons first rest =>
    rw [hs] at h
    exact locateScan_rejected rest first h

/-- C2 witness for the rejection half: a trace holding only one machinery
frame yields an absent file and line. -/
theorem c2_trace_locator_witness :
    allFramesRejectedText
      (gs "goroutine 1 [running]:\nmain.panicRecoveryMiddleware.func1.1(0x0)\n\t/app/main.go:61 +0x25") = true
    ∧ sendErrorLocate
      (gs "goroutine 1 [running]:\nmain.panicRecoveryMiddleware.func1.1(0x0)\n\t/app/main.go:61 +0x25") = ([], 0) :=
  ⟨by decide, c2_trace_locator.1 _ (by decide)⟩

/-- C3 counterexample: the host contains the marker followed by 24 hex
characters (at its second occurrence), yet the resolver — which inspects only
the first occurrence — returns absent with every other source empty. -/
theorem c3_counterexample :
    containsL (gs "xwebapi!webapi0123456789abcdef01234567")
      (gs "webapi0123456789abcdef01234567") = true
    ∧ isValidHex (gs "0123456789abcdef01234567") = true
    ∧ (gs "0123456789abcdef01234567").length = 24
    ∧ extractBoardId
        ⟨[], [], gs "xwebapi!webapi0123456789abcdef01234567", gs "/", gs "GET", gs "ua"⟩
        ⟨[], []⟩ = [] := by
  refine ⟨by decide, by decide, by decide, by decide⟩

/-- C3 amended: with no query, header, or environment tenant id, the host
source inspects the FIRST case-insensitive occurrence of "webapi": when at
least 24 characters follow it and the first 24 are hexadecimal, exactly
those 24 are returned; otherwise the host source is absent and the resolver
falls through to the endpoint-URL pattern. -/
theorem c3_host_pattern_source (r : GoRequest) (env : GoEnv)
    (hq : r.queryBoardId = []) (hh : r.headerBoardId = []) (he : env.boardIdEnv = []) :
    (∀ idx, indexOfSub (goToLower r.host) (gs "webapi") = some idx →
       24 ≤ (r.host.drop (idx + 6)).length →
       isValidHex ((r.host.drop (idx + 6)).take 24) = true →
       extractBoardId r env = (r.host.drop (idx + 6)).take 24)
    ∧ (extractFromPattern r.host = [] →
       extractBoardId r env = extractFromPattern env.endpointUrl) := by
  have hc := extractBoardId_eq_cascade r env
  rw [resolverCascade, if_neg (by simp [hq]), if_neg (by simp [hh]),
    if_neg (by simp [he])] at hc
  constructor
  · intro idx hidx hlen hhex
    have hne : r.host ≠ [] := by
      intro h0
      rw [h0] at hidx
      simp [goToLower, indexOfSub, gs] at hidx
    have hp : extractFromPattern r.host = (r.host.drop (idx + 6)).take 24 := by
      rw [extractFromPattern, if_pos hne, hidx]
      simp only [if_pos hlen, if_pos hhex]
    have h24 : (r.host.drop (idx + 6)).take 24 ≠ [] := by
      apply List.ne_nil_of_length_pos
      rw [List.length_take]
      omega
    rw [hc, hp, if_pos h24]
  · intro h0
    rw [hc, if_neg (by simp [h0])]

/-- C3 witness: the spec's scenario host, no other source set. -/
theorem c3_host_pattern_source_witness :
    extractBoardId
      ⟨[], [], gs "webapi0123456789abcdef01234567.up.example.com", gs "/", gs "GET", gs "ua"⟩
      ⟨[], []⟩ = gs "0123456789abcdef01234567" := by
  have h :=
    (c3_host_pattern_source
      ⟨[], [], gs "webapi0123456789abcdef01234567.up.example.com", gs "/", gs "GET", gs "ua"⟩
      ⟨[], []⟩ rfl rfl rfl).1 0 (by decide) (by decide) (by decide)
  exact h.trans (by decide)

/-- C6 counterexample: on the recovered startup-panic path the report's kind
is "panic", not the claimed "error" (sentinel metadata and exit code are as
claimed; compare the listen-failure conjuncts of the amended theorem). -/
theorem c6_counterexample :
    (startupPanicHandler (gs "http://e") [] (gs "T") (gs "x") (gs "boom")).reportPayload =
      some (startupPanicPayload [] (gs "T") (gs "x") (gs "boom"))
    ∧ containsL (startupPanicPayload [] (gs "T") (gs "x") (gs "boom"))
        (gs "\"exceptionType\":\"panic\"") = true
    ∧ containsL (startupPanicPayload [] (gs "T") (gs "x") (gs "boom"))
        (gs "\"exceptionType\":\"error\"") = false
    ∧ (startupPanicHandler (gs "http://e") [] (gs "T") (gs "x") (gs "boom")).exitCode = 1 := by
  refine ⟨by decide, by decide, by decide, rfl⟩

/-- C6 amended: both startup-failure paths build a report with the sentinel
request metadata STARTUP/STARTUP/STARTUP_ERROR, dispatch it exactly when a
reporting endpoint is configured, and exit with code 1; the kind is "error"
on the listen/bind path and "panic" on the recovered startup-panic path. -/
theorem c6_startup_failure_paths (endpointUrl boardId ts stackTrace errValue : List Char) :
    (listenFailureHandler endpointUrl boardId ts stackTrace errValue).exitCode = 1
    ∧ (startupPanicHandler endpointUrl boardId ts stackTrace errValue).exitCode = 1
    ∧ (endpointUrl = [] →
        (listenFailureHandler endpointUrl boardId ts stackTrace errValue).reportPayload = none
        ∧ (startupPanicHandler endpointUrl boardId ts stackTrace errValue).reportPayload = none)
    ∧ (endpointUrl ≠ [] →
        (listenFailureHandler endpointUrl boardId ts stackTrace errValue).reportPayload =
          some (listenFailurePayload boardId ts stackTrace errValue)
        ∧ (startupPanicHandler endpointUrl boardId ts stackTrace errValue).reportPayload =
          some (startupPanicPayload boardId ts stackTrace errValue))
    ∧ containsL (listenFailurePayload boardId ts stackTrace errValue)
        (gs "\"exceptionType\":\"error\"") = true
    ∧ containsL (listenFailurePayload boardId ts stackTrace errValue)
        (gs "\"requestPath\":\"STARTUP\"") = true
    ∧ containsL (listenFailurePayload boardId ts stackTrace errValue)
        (gs "\"requestMethod\":\"STARTUP\"") = true
    ∧ containsL (listenFailurePayload boardId ts stackTrace errValue)
        (gs "\"userAgent\":\"STARTUP_ERROR\"") = true
    ∧ containsL (startupPanicPayload boardId ts stackTrace errValue)
        (gs "\"exceptionType\":\"panic\"") = true
    ∧ containsL (startupPanicPayload boardId ts stackTrace errValue)
        (gs "\"requestPath\":\"STARTUP\"") = true
    ∧ containsL (startupPanicPayload boardId ts stackTrace errValue)
        (gs "\"requestMethod\":\"STARTUP\"") = true
    ∧ containsL (startupPanicPayload boardId ts stackTrace errValue)
        (gs "\"userAgent\":\"STARTUP_ERROR\"") = true := by
  refine ⟨rfl, rfl, ?_, ?_, ?_, ?_, ?_, ?_, ?_, ?_, ?_, ?_⟩
  · intro h
    constructor
    · rw [listenFailureHandler]
      simp [h]
    · rw [startupPanicHandler]
      simp [h]
  · intro h
    constructor
    · rw [listenFailureHandler]
      simp [h]
    · rw [startupPanicHandler]
      simp [h]
  · simp only [listenFailurePayload]
    exact containsL_append_right _ _ _ (by decide)
  · simp only [listenFailurePayload]
    exact containsL_append_right _ _ _ (by decide)
  · simp only [listenFailurePayload]
    exact containsL_append_right _ _ _ (by decide)
  · simp only [listenFailurePayload]
    exact containsL_append_right _ _ _ (by decide)
  · simp only [startupPanicPayload]
    exact containsL_append_right _ _ _ (by decide)
  · simp only [startupPanicPayload]
    exact containsL_append_right _ _ _ (by decide)
  · simp only [startupPanicPayload]
    exact containsL_append_right _ _ _ (by decide)
  · simp only [startupPanicPayload]
    exact containsL_append_right _ _ _ (by decide)

/-- C8: with an unresolved tenant id, an unlocated file, and a non-positive
line, the encoded payload carries `"boardId":null,`, `"file":null,` and
`"line":null,` — the literal null token after each key, never an empty
string and never a missing key. -/
theorem c8_null_serialization (ts est em path method ua : List Char) (n : Int)
    (hn : n ≤ 0) :
    containsL (requestPayload [] ts [] n est em path method ua)
      (gs "\"boardId\":null,") = true
    ∧ containsL (requestPayload [] ts [] n est em path method ua)
      (gs "\"file\":null,") = true
    ∧ containsL (requestPayload [] ts [] n est em path method ua)
      (gs "\"line\":null,") = true := by
  have hb : boardIdJsonOf [] = gs "null" := rfl
  have hf : fileJsonOf [] = gs "null" := rfl
  have hl : lineJsonOf n = gs "null" := by
    rw [lineJsonOf, if_neg (by omega)]
  refine ⟨?_, ?_, ?_⟩
  · rw [requestPayload, hb, hf, hl]
    iterate 16 apply containsL_append_left
    decide
  · rw [requestPayload, hb, hf, hl]
    iterate 12 apply containsL_append_left
    simp only [List.append_assoc]
    iterate 4 apply containsL_append_right
    decide
  · rw [requestPayload, hb, hf, hl]
    iterate 10 apply containsL_append_left
    simp only [List.append_assoc]
    iterate 6 apply containsL_append_right
    decide

/-- C8 witness: a concrete payload with all three optional values absent. -/
theorem c8_null_serialization_witness :
    containsL (requestPayload [] (gs "T") [] 0 (gs "st") (gs "m") (gs "/p") (gs "GET") (gs "ua"))
      (gs "\"boardId\":null,") = true
    ∧ containsL (requestPayload [] (gs "T") [] 0 (gs "st") (gs "m") (gs "/p") (gs "GET") (gs "ua"))
      (gs "\"file\":null,") = true
    ∧ containsL (requestPayload [] (gs "T") [] 0 (gs "st") (gs "m") (gs "/p") (gs "GET") (gs "ua"))
      (gs "\"line\":null,") = true :=
  c8_null_serialization (gs "T") (gs "st") (gs "m") (gs "/p") (gs "GET") (gs "ua") 0
    (by decide)
